import Mathlib

/-!
Verification of the gita video-to-music pipeline specification.

The repository ships the React frontend (`VideoTrimModal.js`), the database
schema (`setup.sh`) and the backend documentation (README files); the backend
Python agents themselves are not part of the source tree.  Components that are
only described in the spec and the README are therefore modelled from those
documents; the frontend component and the documented status flow are embedded
from the source files directly.  Durations are represented as rationals.
-/

namespace Gita

/-! ## Duration Reconciler (spec §4.6, README "Video Length Preservation") -/

/-- Modelled from the spec: a piece of the reconciled audio stream.  The
backend audio-processing code (video processor / music agents) is not in the
source tree; the README only documents trimming, looping and silence
extension.  `orig s t` denotes the portion `[s, t)` of the raw generated
audio, `silence l` denotes `l` seconds of inserted silence. -/
inductive Segment where
  | orig (start stop : ℚ)
  | silence (len : ℚ)
deriving DecidableEq, Repr

/-- Duration contributed by one segment. -/
def segDur : Segment → ℚ
  | .orig s t => t - s
  | .silence l => l

/-- Total duration of a reconciled audio stream. -/
def totalDur (segs : List Segment) : ℚ :=
  (segs.map segDur).sum

/-- Modelled from the spec: the fatal error for a non-positive target
duration (`InvalidTargetDuration`, §7). -/
inductive ReconcileError where
  | invalidTargetDuration
deriving DecidableEq, Repr

/-- Modelled from the spec: the Duration Reconciler of §4.6.  The backend
implementation is not in the source tree; the README's "Video Length
Preservation" section documents audio trimming, audio looping and silence
extension.  `ε` is the tolerance (default one video frame interval), `minLen`
the minimum usable audio length, `A` the raw audio duration and `V` the
target video duration.  The policy is evaluated once:
`V ≤ 0` fails fast; `|A - V| ≤ ε` uses the audio unchanged; `A > V + ε`
trims to `[0, V]`; otherwise the audio is looped from the start with the
final partial loop trimmed to land exactly on `V`, except that audio shorter
than `minLen` is padded with silence instead of looped. -/
def reconcile (ε minLen A V : ℚ) : Except ReconcileError (List Segment) :=
  if V ≤ 0 then .error .invalidTargetDuration
  else if |A - V| ≤ ε then .ok [.orig 0 A]
  else if A > V + ε then .ok [.orig 0 V]
  else if A < minLen then .ok [.orig 0 A, .silence (V - A)]
  else
    let n : ℕ := (⌊V / A⌋).toNat
    let r : ℚ := V - n * A
    .ok (List.replicate n (.orig 0 A) ++ if 0 < r then [.orig 0 r] else [])

/-! ## Frame Sampler (spec §4.2, README frame extraction step) -/

/-- Modelled from the spec: the `k` sample timestamps of the Frame Sampler,
evenly spaced over `[start, stop]` inclusive of both endpoints for `k > 1`
(`t_i = start + i·(stop-start)/(k-1)`), and the midpoint for `k = 1`.  The
backend frame-extraction code is not in the source tree; the README only
records that five frames are extracted at equal intervals. -/
def sampleTimes (start stop : ℚ) (k : ℕ) : List ℚ :=
  if k = 1 then [(start + stop) / 2]
  else List.map (fun i : ℕ => start + (i : ℚ) * (stop - start) / ((k : ℚ) - 1))
    (List.range k)

/-- Modelled from the spec: backward search for the nearest decodable
timestamp.  `dec` is the decodability oracle of the underlying stream, `δ`
the search step, and the last argument bounds the number of backward steps
(the small backward search window of §4.2). -/
def findDecodable (dec : ℚ → Bool) (δ : ℚ) : ℚ → ℕ → Option ℚ
  | t, 0 => if dec t then some t else none
  | t, n + 1 => if dec t then some t else findDecodable dec δ (t - δ) n

/-- Modelled from the spec: the Frame Sampler of §4.2.  Each requested
timestamp is paired with the nearest decodable timestamp found in the
backward search window; the batch fails (`ExtractionFailed`, returned as
`none`) only when some timestamp has no decodable substitute in the window,
so an undecodable timestamp is substituted, never dropped. -/
def sampleFrames (dec : ℚ → Bool) (δ : ℚ) (w : ℕ) (start stop : ℚ) (k : ℕ) :
    Option (List (ℚ × ℚ)) :=
  let ts := sampleTimes start stop k
  if ts.all (fun t => (findDecodable dec δ t w).isSome) then
    some (ts.map (fun t => (t, (findDecodable dec δ t w).getD t)))
  else none

/-! ## Prompt Checker (spec §4.4, README "Prompt Checker Agent") -/

/-- Modelled from the spec: the deterministic generic fallback prompt used
when vision analysis is unavailable or sanitization empties the prompt. -/
def fallbackPrompt : String := "ambient instrumental background music"

/-- Modelled from the spec: the explicit musical-style / instrumentation cue
appended by the improvement step when it is missing. -/
def styleCue : String := "instrumental"

/-- Words of a prompt: the non-empty chunks between spaces. -/
def wordsOf (s : String) : List String :=
  (s.splitOn " ").filter (fun w => !(w == ""))

/-- Rebuild a prompt from its words, one space between adjacent words. -/
def joinWords : List String → String
  | [] => ""
  | [w] => w
  | w :: ws => w ++ " " ++ joinWords ws

/-- Modelled from the spec: rule (a) of §4.4, strip disallowed terms.  The
disallowed list is the configured parameter. -/
def sanitize (banned : List String) (s : String) : List String :=
  (wordsOf s).filter (fun w => !(banned.contains w))

/-- Whether the first `n` words joined back into a prompt fit in `maxLen`. -/
def fitsLen (maxLen : ℕ) (ws : List String) (n : ℕ) : Bool :=
  decide ((joinWords (ws.take n)).length ≤ maxLen)

/-- The largest word count whose joined text fits in `maxLen`. -/
def largestFit (maxLen : ℕ) (ws : List String) : ℕ :=
  ((List.range (ws.length + 1)).filter (fitsLen maxLen ws)).foldr max 0

/-- Modelled from the spec: rule (b) of §4.4, truncate at a word boundary
(whole words only, never mid-word) so the joined prompt fits in `maxLen`. -/
def truncateWords (maxLen : ℕ) (ws : List String) : List String :=
  ws.take (largestFit maxLen ws)

/-- Modelled from the spec: the improvement step of §4.4, appending the
style cue when missing, guarded so the configured maximum length is never
exceeded. -/
def improveWords (maxLen : ℕ) (ws : List String) : List String :=
  if ws.contains styleCue then ws
  else if (joinWords (ws ++ [styleCue])).length ≤ maxLen then ws ++ [styleCue]
  else ws

/-- Modelled from the spec: the Prompt Checker of §4.4, a pure function.
Rules in order: strip disallowed terms, truncate at a word boundary to the
configured maximum length, substitute the generic fallback if the result is
empty; otherwise apply the improvement step.  The boolean is the `ok` flag:
`false` exactly when the fallback had to be substituted. -/
def validatePrompt (banned : List String) (maxLen : ℕ) (raw : String) :
    String × Bool :=
  let ws := truncateWords maxLen (sanitize banned raw)
  if ws = [] then (fallbackPrompt, false)
  else (joinWords (improveWords maxLen ws), true)

/-! ## Orchestrator status flow (README "Processing Status Flow", setup.sh) -/

/-- Embedded from the repository README (src/unnamed/part_000, section
"Processing Status Flow", lines 130-142): the nine documented status stages,
in the documented order. -/
def readmeStatusFlow : List String :=
  ["uploaded", "processing", "analyzed", "music_generating", "music_completed",
   "music_failed", "combining_video", "completed", "combination_failed"]

/-- Success-path transition of the documented status flow: each in-progress
or completed stage moves to the next stage of the README's numbered list. -/
def nextStatus (s : String) : Option String :=
  if s = "uploaded" then some "processing"
  else if s = "processing" then some "analyzed"
  else if s = "analyzed" then some "music_generating"
  else if s = "music_generating" then some "music_completed"
  else if s = "music_completed" then some "combining_video"
  else if s = "combining_video" then some "completed"
  else none

/-- Failure transition of the documented status flow: music generation can
fail while in `music_generating` and video combination while in
`combining_video`; the README documents no other failure status. -/
def failStatus (s : String) : Option String :=
  if s = "music_generating" then some "music_failed"
  else if s = "combining_video" then some "combination_failed"
  else none

/-- One orchestrator transition: a success step or a failure step. -/
def stepStatus (s t : String) : Prop :=
  nextStatus s = some t ∨ failStatus s = some t

/-- Position of a status in the documented flow; failure statuses sit right
above the in-progress status they come from, unknown strings at the top. -/
def statusRank (s : String) : ℕ :=
  if s = "uploaded" then 0
  else if s = "processing" then 1
  else if s = "analyzed" then 2
  else if s = "music_generating" then 3
  else if s = "music_failed" then 4
  else if s = "music_completed" then 5
  else if s = "combining_video" then 6
  else if s = "combination_failed" then 7
  else if s = "completed" then 8
  else 9

/-- The success path of the documented status flow, in order. -/
def successPath : List String :=
  ["uploaded", "processing", "analyzed", "music_generating", "music_completed",
   "combining_video", "completed"]

/-- The status sequence asserted by the specification's state machine (§4.8),
stated verbatim so it can be compared with the flow the repository documents. -/
def specStatusSequence : List String :=
  ["uploaded", "frames_extracting", "frames_extracted", "analyzing", "analyzed",
   "generating_music", "music_completed", "combining_video", "completed"]

/-! ## Prompt Generator and pipeline progress (spec §4.3/§4.8, README) -/

/-- Modelled from the spec: the possible outcomes of the one call to the
external vision-analysis collaborator (§4.3): a well-formed text response,
a collaborator error, a timeout, or a malformed response. -/
inductive VisionOutcome where
  | ok (text : String)
  | errored
  | timedOut
  | malformed
deriving DecidableEq

/-- Modelled from the spec: the Prompt Generator's result, a prompt plus the
`used_fallback` flag.  On collaborator error, timeout or malformed response
it returns the deterministic generic fallback prompt instead of propagating
the failure (README: "Returns generic prompt if analysis fails"). -/
def generatePrompt : VisionOutcome → String × Bool
  | .ok t => (t, false)
  | .errored => (fallbackPrompt, true)
  | .timedOut => (fallbackPrompt, true)
  | .malformed => (fallbackPrompt, true)

/-- Modelled from the spec and the README workflow: the statuses recorded by
one pipeline run, in order.  Vision analysis is best-effort, so the trace
does not depend on the vision outcome; `musicOk` and `combineOk` tell
whether music generation and video combination succeed. -/
def pipelineTrace (musicOk combineOk : Bool) : List String :=
  ["uploaded", "processing", "analyzed", "music_generating"] ++
    (if musicOk then
      ["music_completed", "combining_video"] ++
        (if combineOk then ["completed"] else ["combination_failed"])
    else ["music_failed"])

/-- Summary of one pipeline run: the prompt handed to music generation, the
`used_fallback` flag, and the recorded status trace. -/
structure PipelineRun where
  promptUsed : String
  usedFallback : Bool
  trace : List String
deriving DecidableEq

/-- Modelled from the spec: one run of the orchestrated pipeline, driven by
the vision outcome and the success of the music and combination stages. -/
def runPipeline (v : VisionOutcome) (musicOk combineOk : Bool) : PipelineRun :=
  ⟨(generatePrompt v).1, (generatePrompt v).2, pipelineTrace musicOk combineOk⟩

/-! ## VideoTrimModal frontend component (src/frontend/src/components) -/

/-- Embedded from VideoTrimModal.js: the component state consulted by the
upload handlers and the upload button. -/
structure TrimState where
  videoDuration : ℚ
  trimStart : ℚ
  trimEnd : ℚ
  trimmedDuration : ℚ
  uploading : Bool
  isProcessing : Bool
  ffmpegLoaded : Bool

/-- Embedded from VideoTrimModal.js: the object passed to the `onUpload`
callback; `usesOriginalFile` is true when the original file is sent instead
of the trimmed blob. -/
structure UploadPayload where
  trimStart : ℚ
  trimEnd : ℚ
  duration : ℚ
  usesOriginalFile : Bool
deriving DecidableEq

/-- Embedded from VideoTrimModal.js line 27: `MAX_DURATION = 30`. -/
def MAX_DURATION : ℚ := 30

/-- Embedded from VideoTrimModal.js lines 151-194 (`handleUpload`): the
guards returning early without invoking `onUpload`, and otherwise the
payload handed to `onUpload` (the trimmed blob with the selected window). -/
def handleUpload (s : TrimState) : Option UploadPayload :=
  if s.trimmedDuration > MAX_DURATION then none
  else if s.trimStart ≥ s.trimEnd then none
  else if s.ffmpegLoaded = false then none
  else some ⟨s.trimStart, s.trimEnd, s.trimmedDuration, false⟩

/-- Embedded from VideoTrimModal.js lines 378-396: the `disabled` condition
of the Upload and Trim button. -/
def uploadButtonDisabled (s : TrimState) : Bool :=
  s.uploading || s.isProcessing || !s.ffmpegLoaded ||
    decide (s.trimmedDuration > MAX_DURATION) || decide (s.trimStart ≥ s.trimEnd)

/-- Embedded from VideoTrimModal.js lines 196-207 (`handleSkipTrimming`):
the original file is submitted with `trimStart = 0` and
`trimEnd = duration = min(videoDuration, MAX_DURATION)`. -/
def handleSkipTrimming (s : TrimState) : UploadPayload :=
  ⟨0, min s.videoDuration MAX_DURATION, min s.videoDuration MAX_DURATION, true⟩

/-! ## Helper lemmas -/

lemma totalDur_nil : totalDur [] = 0 := rfl

lemma totalDur_cons (s : Segment) (l : List Segment) :
    totalDur (s :: l) = segDur s + totalDur l := by
  simp [totalDur]

lemma totalDur_append (l₁ l₂ : List Segment) :
    totalDur (l₁ ++ l₂) = totalDur l₁ + totalDur l₂ := by
  simp [totalDur]

lemma totalDur_replicate (n : ℕ) (s : Segment) :
    totalDur (List.replicate n s) = n * segDur s := by
  induction n with
  | zero => simp [totalDur]
  | succ k ih =>
      rw [List.replicate_succ, totalDur_cons, ih]
      push_cast
      ring

/-- In the looping branch the number of whole loops never overshoots the
target: `⌊V / A⌋.toNat * A ≤ V` for positive `A` and `V`. -/
lemma floor_loops_le (A V : ℚ) (hA : 0 < A) (hV : 0 < V) :
    ((⌊V / A⌋).toNat : ℚ) * A ≤ V := by
  have hq : (0 : ℚ) ≤ V / A := le_of_lt (div_pos hV hA)
  have hz : (0 : ℤ) ≤ ⌊V / A⌋ := by
    exact_mod_cast Int.le_floor.mpr (by exact_mod_cast hq)
  have hcast : (((⌊V / A⌋).toNat : ℤ) : ℚ) = ((⌊V / A⌋ : ℤ) : ℚ) := by
    exact_mod_cast congrArg (fun z : ℤ => (z : ℚ)) (Int.toNat_of_nonneg hz)
  have hfl : ((⌊V / A⌋ : ℤ) : ℚ) ≤ V / A := Int.floor_le _
  have : ((⌊V / A⌋).toNat : ℚ) ≤ V / A := by
    rw [show ((⌊V / A⌋).toNat : ℚ) = (((⌊V / A⌋).toNat : ℤ) : ℚ) by push_cast; ring]
    rw [hcast]; exact hfl
  calc ((⌊V / A⌋).toNat : ℚ) * A ≤ (V / A) * A :=
        mul_le_mul_of_nonneg_right this (le_of_lt hA)
    _ = V := by field_simp

/-- The looping branch lands exactly on the target duration `V`. -/
lemma totalDur_loop (A V : ℚ) (hA : 0 < A) (hV : 0 < V) :
    totalDur (List.replicate (⌊V / A⌋).toNat (.orig 0 A) ++
      (if 0 < V - (⌊V / A⌋).toNat * A then
        [Segment.orig 0 (V - (⌊V / A⌋).toNat * A)] else [])) = V := by
  have hle : ((⌊V / A⌋).toNat : ℚ) * A ≤ V := floor_loops_le A V hA hV
  by_cases hr : 0 < V - (⌊V / A⌋).toNat * A
  · rw [if_pos hr, totalDur_append, totalDur_replicate]
    simp [totalDur, segDur]
  · rw [if_neg hr, totalDur_append, totalDur_replicate, totalDur_nil]
    have : V - ((⌊V / A⌋).toNat : ℚ) * A ≤ 0 := le_of_not_lt hr
    simp [segDur]
    linarith

/-- From the failure of the first two policy tests the third applies. -/
lemma third_branch (ε A V : ℚ) (h1 : ¬ |A - V| ≤ ε) (h2 : ¬ A > V + ε) :
    A < V - ε := by
  rcases (lt_abs.mp (not_le.mp h1)) with h | h
  · exact absurd (by linarith : A > V + ε) h2
  · linarith

/-- Branch equation: audio already within tolerance is used unchanged. -/
lemma reconcile_same_eq (ε minLen A V : ℚ) (hV0 : ¬ V ≤ 0) (h1 : |A - V| ≤ ε) :
    reconcile ε minLen A V = .ok [.orig 0 A] := by
  unfold reconcile
  rw [if_neg hV0, if_pos h1]

/-- Branch equation: audio longer than the target is trimmed to `[0, V]`. -/
lemma reconcile_trim_eq (ε minLen A V : ℚ) (hV0 : ¬ V ≤ 0)
    (h1 : ¬ |A - V| ≤ ε) (h2 : A > V + ε) :
    reconcile ε minLen A V = .ok [.orig 0 V] := by
  unfold reconcile
  rw [if_neg hV0, if_neg h1, if_pos h2]

/-- Branch equation: degenerate audio is padded with silence. -/
lemma reconcile_pad_eq (ε minLen A V : ℚ) (hV0 : ¬ V ≤ 0)
    (h1 : ¬ |A - V| ≤ ε) (h2 : ¬ A > V + ε) (h4 : A < minLen) :
    reconcile ε minLen A V = .ok [.orig 0 A, .silence (V - A)] := by
  unfold reconcile
  rw [if_neg hV0, if_neg h1, if_neg h2, if_pos h4]

/-- Branch equation: usable short audio is looped with a trimmed final
partial loop. -/
lemma reconcile_loop_eq (ε minLen A V : ℚ) (hV0 : ¬ V ≤ 0)
    (h1 : ¬ |A - V| ≤ ε) (h2 : ¬ A > V + ε) (h4 : ¬ A < minLen) :
    reconcile ε minLen A V =
      .ok (List.replicate (⌊V / A⌋).toNat (.orig 0 A) ++
        (if 0 < V - (⌊V / A⌋).toNat * A then
          [Segment.orig 0 (V - (⌊V / A⌋).toNat * A)] else [])) := by
  unfold reconcile
  rw [if_neg hV0, if_neg h1, if_neg h2, if_neg h4]

/-! ## Claim theorems -/

/-- C1: for every raw audio duration `A ≥ 0` and target duration `V > 0`
(with a nonnegative tolerance and a positive minimum usable length), the
Duration Reconciler returns an audio stream whose duration is within `ε` of
`V`, and exactly one of the three policy branches (use unchanged, trim,
loop or pad) applies to the pair `(A, V)`. -/
theorem reconcile_within_tolerance (ε minLen A V : ℚ)
    (hε : 0 ≤ ε) (hm : 0 < minLen) (hA : 0 ≤ A) (hV : 0 < V) :
    (∃ segs, reconcile ε minLen A V = .ok segs ∧ |totalDur segs - V| ≤ ε) ∧
    ((|A - V| ≤ ε ∧ ¬ A > V + ε ∧ ¬ A < V - ε) ∨
     (¬ |A - V| ≤ ε ∧ A > V + ε ∧ ¬ A < V - ε) ∨
     (¬ |A - V| ≤ ε ∧ ¬ A > V + ε ∧ A < V - ε)) := by
  have hV0 : ¬ V ≤ 0 := not_le.mpr hV
  constructor
  · by_cases h1 : |A - V| ≤ ε
    · exact ⟨[.orig 0 A], reconcile_same_eq ε minLen A V hV0 h1,
        by simpa [totalDur, segDur] using h1⟩
    · by_cases h2 : A > V + ε
      · exact ⟨[.orig 0 V], reconcile_trim_eq ε minLen A V hV0 h1 h2,
          by simp [totalDur, segDur, hε]⟩
      · by_cases h4 : A < minLen
        · refine ⟨[.orig 0 A, .silence (V - A)],
            reconcile_pad_eq ε minLen A V hV0 h1 h2 h4, ?_⟩
          have hd : totalDur [.orig 0 A, .silence (V - A)] = V := by
            simp [totalDur, segDur]
          rw [hd]
          simp [hε]
        · have hA0 : 0 < A := lt_of_lt_of_le hm (le_of_not_lt h4)
          refine ⟨_, reconcile_loop_eq ε minLen A V hV0 h1 h2 h4, ?_⟩
          rw [totalDur_loop A V hA0 hV]
          simp [hε]
  · by_cases h1 : |A - V| ≤ ε
    · rcases abs_le.mp h1 with ⟨hl, hr⟩
      exact Or.inl ⟨h1, not_lt.mpr (by linarith), not_lt.mpr (by linarith)⟩
    · by_cases h2 : A > V + ε
      · exact Or.inr (Or.inl ⟨h1, h2, not_lt.mpr (by linarith)⟩)
      · exact Or.inr (Or.inr ⟨h1, h2, third_branch ε A V h1 h2⟩)

/-- Witness for C1 at `ε = 1/30`, `minLen = 1/10`, `A = 20`, `V = 15`. -/
theorem reconcile_within_tolerance_witness :
    ((0 : ℚ) ≤ 1/30 ∧ (0 : ℚ) < 1/10 ∧ (0 : ℚ) ≤ 20 ∧ (0 : ℚ) < 15) ∧
    ((∃ segs, reconcile (1/30) (1/10) 20 15 = .ok segs ∧
        |totalDur segs - 15| ≤ 1/30) ∧
     ((|(20 : ℚ) - 15| ≤ 1/30 ∧ ¬ (20 : ℚ) > 15 + 1/30 ∧ ¬ (20 : ℚ) < 15 - 1/30) ∨
      (¬ |(20 : ℚ) - 15| ≤ 1/30 ∧ (20 : ℚ) > 15 + 1/30 ∧ ¬ (20 : ℚ) < 15 - 1/30) ∨
      (¬ |(20 : ℚ) - 15| ≤ 1/30 ∧ ¬ (20 : ℚ) > 15 + 1/30 ∧ (20 : ℚ) < 15 - 1/30))) :=
  ⟨⟨by norm_num, by norm_num, by norm_num, by norm_num⟩,
   reconcile_within_tolerance (1/30) (1/10) 20 15
     (by norm_num) (by norm_num) (by norm_num) (by norm_num)⟩

/-- C8: for every target duration `V ≤ 0` the Duration Reconciler fails
fast with the `InvalidTargetDuration` error instead of producing audio. -/
theorem reconcile_invalid_target (ε minLen A V : ℚ) (h : V ≤ 0) :
    reconcile ε minLen A V = .error .invalidTargetDuration := by
  simp [reconcile, h]

/-- Witness for C8 at `V = 0`. -/
theorem reconcile_invalid_target_witness :
    (0 : ℚ) ≤ 0 ∧
    reconcile (1/30) (1/10) 5 0 = .error .invalidTargetDuration :=
  ⟨le_refl 0, reconcile_invalid_target (1/30) (1/10) 5 0 (le_refl 0)⟩

/-- C3 counterexample: an audio duration below the minimum usable length
(`A = 0.05`, below `minLen = 0.1`) with a target `V = 0.06 > 0` already
within tolerance (`ε = 1/30`) is used unchanged: the reconciler does not
pad the remaining `V - A` with silence, refuting the claim as stated for
every `V > 0`. -/
theorem reconcile_degenerate_counterexample :
    reconcile (1/30) (1/10) (1/20) (3/50) = .ok [.orig 0 (1/20)] ∧
    Segment.silence (3/50 - 1/20) ∉ [Segment.orig 0 (1/20)] ∧
    totalDur [Segment.orig 0 (1/20)] ≠ 3/50 := by
  have h0 : ¬ (3/50 : ℚ) ≤ 0 := by norm_num
  have h1 : |(1/20 : ℚ) - 3/50| ≤ 1/30 := by
    rw [abs_le]
    constructor <;> norm_num
  refine ⟨reconcile_same_eq (1/30) (1/10) (1/20) (3/50) h0 h1, ?_, ?_⟩
  · intro hmem
    exact Segment.noConfusion (List.mem_singleton.mp hmem)
  · norm_num [totalDur, segDur]

/-- C3 amended: for every audio duration `A` below the minimum usable
length with `A < V - ε` (so that the lengthening branch applies), the
Duration Reconciler skips looping and pads the remaining `V - A` with
silence, landing exactly on `V`. -/
theorem reconcile_pads_degenerate (ε minLen A V : ℚ)
    (hε : 0 ≤ ε) (hA : 0 ≤ A) (hdeg : A < minLen) (hshort : A < V - ε) :
    reconcile ε minLen A V = .ok [.orig 0 A, .silence (V - A)] ∧
    totalDur [Segment.orig 0 A, Segment.silence (V - A)] = V := by
  have hV0 : ¬ V ≤ 0 := by simp; linarith
  have h1 : ¬ |A - V| ≤ ε := by
    rw [abs_le]
    intro ⟨hl, _⟩
    linarith
  have h2 : ¬ A > V + ε := not_lt.mpr (by linarith)
  exact ⟨reconcile_pad_eq ε minLen A V hV0 h1 h2 hdeg, by simp [totalDur, segDur]⟩

/-- Witness for the amended C3: scenario C, `A = 0.05`, `V = 10`,
`ε = 1/30`, `minLen = 0.1`; the output is the original `0.05 s` of audio
followed by `9.95 s` of silence. -/
theorem reconcile_pads_degenerate_witness :
    ((0 : ℚ) ≤ 1/30 ∧ (0 : ℚ) ≤ 1/20 ∧ (1/20 : ℚ) < 1/10 ∧
      (1/20 : ℚ) < 10 - 1/30) ∧
    reconcile (1/30) (1/10) (1/20) 10 =
      .ok [.orig 0 (1/20), .silence (199/20)] ∧
    totalDur [Segment.orig 0 (1/20), Segment.silence (199/20)] = 10 := by
  have h := reconcile_pads_degenerate (1/30) (1/10) (1/20) 10
    (by norm_num) (by norm_num) (by norm_num) (by norm_num)
  refine ⟨⟨by norm_num, by norm_num, by norm_num, by norm_num⟩, ?_,
    by norm_num [totalDur, segDur]⟩
  rw [h.1]
  norm_num

/-- C4: for every usable audio duration (`minLen ≤ A`) with `A < V - ε`,
the Duration Reconciler loops the audio from its start, `⌊V / A⌋` full
loops followed by a final partial loop trimmed so the result lands exactly
on `V`. -/
theorem reconcile_loops_and_trims (ε minLen A V : ℚ)
    (hε : 0 ≤ ε) (hm : 0 < minLen) (husable : minLen ≤ A) (hshort : A < V - ε) :
    reconcile ε minLen A V =
      .ok (List.replicate (⌊V / A⌋).toNat (.orig 0 A) ++
        (if 0 < V - (⌊V / A⌋).toNat * A then
          [Segment.orig 0 (V - (⌊V / A⌋).toNat * A)] else [])) ∧
    totalDur (List.replicate (⌊V / A⌋).toNat (.orig 0 A) ++
        (if 0 < V - (⌊V / A⌋).toNat * A then
          [Segment.orig 0 (V - (⌊V / A⌋).toNat * A)] else [])) = V := by
  have hA0 : 0 < A := lt_of_lt_of_le hm husable
  have hV : 0 < V := by linarith
  have hV0 : ¬ V ≤ 0 := not_le.mpr hV
  have h1 : ¬ |A - V| ≤ ε := by
    rw [abs_le]
    intro ⟨hl, _⟩
    linarith
  have h2 : ¬ A > V + ε := not_lt.mpr (by linarith)
  have h4 : ¬ A < minLen := not_lt.mpr husable
  exact ⟨reconcile_loop_eq ε minLen A V hV0 h1 h2 h4, totalDur_loop A V hA0 hV⟩

/-- Witness for C4: scenario B, `V = 15`, `A = 4`, `ε = 1/30`,
`minLen = 1/10`; the output is three full loops of four seconds plus one
three-second partial loop, total exactly fifteen seconds. -/
theorem reconcile_loops_and_trims_witness :
    ((0 : ℚ) ≤ 1/30 ∧ (0 : ℚ) < 1/10 ∧ (1/10 : ℚ) ≤ 4 ∧
      (4 : ℚ) < 15 - 1/30) ∧
    reconcile (1/30) (1/10) 4 15 =
      .ok (List.replicate 3 (.orig 0 4) ++ [.orig 0 3]) ∧
    totalDur (List.replicate 3 (Segment.orig 0 4) ++ [Segment.orig 0 3]) = 15 := by
  have h := reconcile_loops_and_trims (1/30) (1/10) 4 15
    (by norm_num) (by norm_num) (by norm_num) (by norm_num)
  have hfloor : ⌊(15 : ℚ) / 4⌋ = 3 := by
    rw [Int.floor_eq_iff]
    norm_num
  refine ⟨⟨by norm_num, by norm_num, by norm_num, by norm_num⟩, ?_,
    by norm_num [totalDur, segDur]⟩
  rw [h.1, hfloor]
  have h3 : Int.toNat 3 = 3 := rfl
  rw [h3]
  norm_num

/-- Every orchestrator transition strictly increases the status rank. -/
lemma step_rank_lt (s t : String) (h : stepStatus s t) :
    statusRank s < statusRank t := by
  rcases h with h | h
  · unfold nextStatus at h
    split_ifs at h with h1 h2 h3 h4 h5 h6 <;>
      first
        | exact Option.noConfusion h
        | (injection h with he; subst he; subst_vars; decide)
  · unfold failStatus at h
    split_ifs at h with h1 h2 <;>
      first
        | exact Option.noConfusion h
        | (injection h with he; subst he; subst_vars; decide)

/-- The music failure status is reachable only from `music_generating`. -/
lemma music_failed_source (s : String) (h : stepStatus s "music_failed") :
    s = "music_generating" := by
  rcases h with h | h
  · unfold nextStatus at h
    split_ifs at h <;>
      first
        | (injection h with he; exact absurd he (by decide))
        | injection h
  · unfold failStatus at h
    split_ifs at h with h1 h2
    · exact h1
    · injection h with he
      exact absurd he (by decide)

/-- The combination failure status is reachable only from `combining_video`. -/
lemma combination_failed_source (s : String) (h : stepStatus s "combination_failed") :
    s = "combining_video" := by
  rcases h with h | h
  · unfold nextStatus at h
    split_ifs at h <;>
      first
        | (injection h with he; exact absurd he (by decide))
        | injection h
  · unfold failStatus at h
    split_ifs at h with h1 h2
    · injection h with he
      exact absurd he (by decide)
    · exact h2

/-- C2 counterexample: the status sequence asserted by the claim does not
match the flow the repository documents; in particular the repository's
README flow contains no `frames_extracting` (nor `analysis_failed`) status,
and the documented successor of `uploaded` is `processing`. -/
theorem statusFlow_counterexample :
    specStatusSequence ≠ readmeStatusFlow ∧
    "frames_extracting" ∉ readmeStatusFlow ∧
    "analysis_failed" ∉ readmeStatusFlow ∧
    nextStatus "uploaded" = some "processing" ∧
    nextStatus "uploaded" ≠ some "frames_extracting" := by
  refine ⟨by decide, by decide, by decide, by decide, by decide⟩

/-- C2 amended: the documented status flow moves each video through
`uploaded → processing → analyzed → music_generating → music_completed →
combining_video → completed`, in that order; transitions are
one-directional (every step strictly increases the status rank), and each
failure status is reachable only from its corresponding in-progress status
(`music_failed` from `music_generating`, `combination_failed` from
`combining_video`). -/
theorem orchestrator_status_flow :
    List.Chain' stepStatus successPath ∧
    (∀ s t, stepStatus s t → statusRank s < statusRank t) ∧
    (∀ s, stepStatus s "music_failed" → s = "music_generating") ∧
    (∀ s, stepStatus s "combination_failed" → s = "combining_video") ∧
    (∀ s ∈ successPath, s ∈ readmeStatusFlow) ∧
    "music_failed" ∈ readmeStatusFlow ∧ "combination_failed" ∈ readmeStatusFlow :=
  ⟨by simp [successPath, List.chain'_cons, stepStatus, nextStatus, failStatus],
   step_rank_lt, music_failed_source, combination_failed_source,
   by decide, by decide, by decide⟩

/-- Witness for C2 (amended): the concrete transition from
`music_generating` to `music_failed` strictly increases the rank, and
`music_failed` is indeed entered from `music_generating`. -/
theorem orchestrator_status_flow_witness :
    stepStatus "music_generating" "music_failed" ∧
    statusRank "music_generating" < statusRank "music_failed" ∧
    ("music_generating" : String) = "music_generating" :=
  ⟨Or.inr (by decide),
   orchestrator_status_flow.2.1 "music_generating" "music_failed" (Or.inr (by decide)),
   orchestrator_status_flow.2.2.1 "music_generating" (Or.inr (by decide))⟩

/-- C7: whenever the vision-analysis collaborator errors, times out or
returns a malformed response, the Prompt Generator returns the deterministic
generic fallback prompt with `used_fallback` set, and the pipeline (with
music generation and combination succeeding) still records the
music-generation stage and finishes with status `completed`, never an
analysis-failure status. -/
theorem promptGenerator_fallback_nonblocking (v : VisionOutcome)
    (h : v = .errored ∨ v = .timedOut ∨ v = .malformed) :
    generatePrompt v = (fallbackPrompt, true) ∧
    (runPipeline v true true).promptUsed = fallbackPrompt ∧
    (runPipeline v true true).usedFallback = true ∧
    "music_generating" ∈ (runPipeline v true true).trace ∧
    (runPipeline v true true).trace.getLast? = some "completed" ∧
    "analysis_failed" ∉ (runPipeline v true true).trace := by
  rcases h with h | h | h <;> subst h <;>
    exact ⟨rfl, rfl, rfl, by decide, by decide, by decide⟩

/-- Witness for C7: scenario D, the vision collaborator times out. -/
theorem promptGenerator_fallback_witness :
    (VisionOutcome.timedOut = VisionOutcome.errored ∨
      VisionOutcome.timedOut = VisionOutcome.timedOut ∨
      VisionOutcome.timedOut = VisionOutcome.malformed) ∧
    (generatePrompt .timedOut = (fallbackPrompt, true) ∧
     (runPipeline .timedOut true true).promptUsed = fallbackPrompt ∧
     (runPipeline .timedOut true true).usedFallback = true ∧
     "music_generating" ∈ (runPipeline .timedOut true true).trace ∧
     (runPipeline .timedOut true true).trace.getLast? = some "completed" ∧
     "analysis_failed" ∉ (runPipeline .timedOut true true).trace) :=
  ⟨Or.inr (Or.inl rfl),
   promptGenerator_fallback_nonblocking .timedOut (Or.inr (Or.inl rfl))⟩

/-- C9: the `onUpload` callback is invoked via the Upload and Trim button
only when `trimStart < trimEnd`, `trimmedDuration ≤ MAX_DURATION` and
FFmpeg has loaded; for any state violating one of these conditions,
`handleUpload` returns without calling `onUpload` and the button itself is
disabled. -/
theorem handleUpload_guarded (s : TrimState) :
    (∀ p, handleUpload s = some p →
      s.trimStart < s.trimEnd ∧ s.trimmedDuration ≤ MAX_DURATION ∧
      s.ffmpegLoaded = true ∧
      p = ⟨s.trimStart, s.trimEnd, s.trimmedDuration, false⟩) ∧
    (s.trimmedDuration > MAX_DURATION ∨ s.trimEnd ≤ s.trimStart ∨
        s.ffmpegLoaded = false →
      handleUpload s = none ∧ uploadButtonDisabled s = true) := by
  constructor
  · intro p hp
    unfold handleUpload at hp
    split_ifs at hp with h1 h2 h3
    injection hp with he
    refine ⟨not_le.mp h2, not_lt.mp h1, ?_, he.symm⟩
    rcases Bool.eq_false_or_eq_true s.ffmpegLoaded with hb | hb
    · exact hb
    · exact absurd hb h3
  · intro hviol
    constructor
    · unfold handleUpload
      split_ifs with h1 h2 h3 <;> try rfl
      rcases hviol with h | h | h
      · exact absurd h h1
      · exact absurd h h2
      · exact absurd h h3
    · rcases hviol with h | h | h
      · simp [uploadButtonDisabled, h]
      · simp [uploadButtonDisabled, ge_iff_le, h]
      · simp [uploadButtonDisabled, h]

/-- Witness for C9: with `trimEnd = 3 ≤ trimStart = 5` the handler bails
out and the upload button is disabled. -/
theorem handleUpload_guarded_witness :
    ((3 : ℚ) ≤ 5) ∧
    handleUpload ⟨10, 5, 3, 2, false, false, true⟩ = none ∧
    uploadButtonDisabled ⟨10, 5, 3, 2, false, false, true⟩ = true :=
  ⟨by norm_num,
   (handleUpload_guarded ⟨10, 5, 3, 2, false, false, true⟩).2
     (Or.inr (Or.inl (by norm_num)))⟩

/-- The Frame Sampler always computes exactly `k` timestamps. -/
lemma sampleTimes_length (start stop : ℚ) (k : ℕ) :
    (sampleTimes start stop k).length = k := by
  unfold sampleTimes
  split_ifs with h
  · simp [h]
  · rw [List.length_map, List.length_range]

/-- The sample timestamps are strictly increasing. -/
lemma sampleTimes_pairwise (start stop : ℚ) (k : ℕ) (h : start < stop) :
    (sampleTimes start stop k).Pairwise (· < ·) := by
  unfold sampleTimes
  split_ifs with hk
  · simp
  · rcases Nat.lt_or_ge k 2 with hk2 | hk2
    · have hk0 : k = 0 := by omega
      subst hk0
      simp
    · have hc : 0 < (stop - start) / ((k : ℚ) - 1) := by
        apply div_pos (by linarith)
        have h2 : (2 : ℚ) ≤ (k : ℚ) := by exact_mod_cast hk2
        linarith
      rw [List.pairwise_map]
      refine List.Pairwise.imp ?_ (List.pairwise_lt_range k)
      intro a b hab
      have hab2 : (a : ℚ) < (b : ℚ) := by exact_mod_cast hab
      have h3 := mul_lt_mul_of_pos_right hab2 hc
      rw [mul_div_assoc, mul_div_assoc]
      linarith

/-- C5: for every trim window with `stop > start` and every desired frame
count `k ≥ 1`, the Frame Sampler produces exactly `k` frames, in strictly
increasing timestamp order, requested at `t_i = start + i·(stop-start)/(k-1)`
for `k > 1` and at the midpoint for `k = 1`; under minor timestamp drift
(every requested timestamp has a decodable substitute within the backward
search window) no frame is dropped: each undecodable timestamp is replaced
by the nearest decodable one. -/
theorem sampleFrames_exact_count (dec : ℚ → Bool) (δ : ℚ) (w : ℕ)
    (start stop : ℚ) (k : ℕ) (hlt : start < stop) (hk : 1 ≤ k)
    (hdrift : (sampleTimes start stop k).all
      (fun t => (findDecodable dec δ t w).isSome) = true) :
    ∃ fs, sampleFrames dec δ w start stop k = some fs ∧
      fs.length = k ∧
      fs.map Prod.fst = sampleTimes start stop k ∧
      (fs.map Prod.fst).Pairwise (· < ·) ∧
      (k = 1 → sampleTimes start stop k = [(start + stop) / 2]) ∧
      (2 ≤ k → sampleTimes start stop k =
        List.map (fun i : ℕ => start + (i : ℚ) * (stop - start) / ((k : ℚ) - 1))
          (List.range k)) := by
  have hmap : ((sampleTimes start stop k).map
      (fun t => (t, (findDecodable dec δ t w).getD t))).map Prod.fst
      = sampleTimes start stop k := by
    rw [List.map_map]
    exact List.map_id _
  refine ⟨(sampleTimes start stop k).map
      (fun t => (t, (findDecodable dec δ t w).getD t)), ?_, ?_, hmap, ?_, ?_, ?_⟩
  · unfold sampleFrames
    rw [if_pos hdrift]
  · rw [List.length_map, sampleTimes_length]
  · rw [hmap]
    exact sampleTimes_pairwise start stop k hlt
  · intro h1
    subst h1
    simp [sampleTimes]
  · intro h2
    have hne : k ≠ 1 := by omega
    simp [sampleTimes, hne]

/-- Witness for C5 at `start = 0`, `stop = 10`, `k = 5`, with an
everywhere-decodable stream. -/
theorem sampleFrames_exact_count_witness :
    ((0 : ℚ) < 10 ∧ 1 ≤ 5 ∧
      (sampleTimes 0 10 5).all
        (fun t => (findDecodable (fun _ => true) 1 t 3).isSome) = true) ∧
    (∃ fs, sampleFrames (fun _ => true) 1 3 0 10 5 = some fs ∧
      fs.length = 5 ∧
      fs.map Prod.fst = sampleTimes 0 10 5 ∧
      (fs.map Prod.fst).Pairwise (· < ·) ∧
      (5 = 1 → sampleTimes 0 10 5 = [((0 : ℚ) + 10) / 2]) ∧
      (2 ≤ 5 → sampleTimes 0 10 5 =
        List.map (fun i : ℕ => (0 : ℚ) + (i : ℚ) * ((10 : ℚ) - 0) / ((5 : ℚ) - 1))
          (List.range 5))) :=
  ⟨⟨by norm_num, by norm_num, rfl⟩,
   sampleFrames_exact_count (fun _ => true) 1 3 0 10 5
     (by norm_num) (by norm_num) rfl⟩

/-- C10: `handleSkipTrimming` always submits the original file with
`trimStart = 0` and `trimEnd = duration = min(videoDuration, MAX_DURATION)`,
so a skip-trimming upload never declares a duration exceeding the cap. -/
theorem handleSkipTrimming_capped (s : TrimState) :
    (handleSkipTrimming s).usesOriginalFile = true ∧
    (handleSkipTrimming s).trimStart = 0 ∧
    (handleSkipTrimming s).trimEnd = min s.videoDuration MAX_DURATION ∧
    (handleSkipTrimming s).duration = (handleSkipTrimming s).trimEnd ∧
    (handleSkipTrimming s).duration ≤ MAX_DURATION :=
  ⟨rfl, rfl, rfl, rfl, min_le_right _ _⟩

/-- Witness for C10 at a loaded video of `45` seconds: the declared
duration is capped at `30`. -/
theorem handleSkipTrimming_capped_witness :
    (handleSkipTrimming ⟨45, 0, 30, 30, false, false, false⟩).usesOriginalFile = true ∧
    (handleSkipTrimming ⟨45, 0, 30, 30, false, false, false⟩).trimStart = 0 ∧
    (handleSkipTrimming ⟨45, 0, 30, 30, false, false, false⟩).trimEnd
      = min 45 MAX_DURATION ∧
    (handleSkipTrimming ⟨45, 0, 30, 30, false, false, false⟩).duration
      = (handleSkipTrimming ⟨45, 0, 30, 30, false, false, false⟩).trimEnd ∧
    (handleSkipTrimming ⟨45, 0, 30, 30, false, false, false⟩).duration ≤ MAX_DURATION :=
  handleSkipTrimming_capped ⟨45, 0, 30, 30, false, false, false⟩


/-- A fold of `max` over numbers all satisfying a predicate that also holds
at `0` satisfies the predicate. -/
lemma foldr_max_pred (P : ℕ → Bool) (l : List ℕ) (h0 : P 0 = true)
    (hl : ∀ x ∈ l, P x = true) : P (l.foldr max 0) = true := by
  induction l with
  | nil => simpa using h0
  | cons a l ih =>
      have ha := hl a (List.mem_cons_self a l)
      have ih2 := ih (fun x hx => hl x (List.mem_cons_of_mem a hx))
      rcases max_choice a (l.foldr max 0) with hm | hm <;>
        simp only [List.foldr, hm, ha, ih2]

/-- The truncation always fits the configured maximum length. -/
lemma truncate_fits (maxLen : ℕ) (ws : List String) :
    (joinWords (truncateWords maxLen ws)).length ≤ maxLen := by
  have h : fitsLen maxLen ws (largestFit maxLen ws) = true := by
    refine foldr_max_pred (fitsLen maxLen ws) _ ?_ ?_
    · simp [fitsLen, joinWords]
    · exact fun x hx => (List.mem_filter.mp hx).2
  exact of_decide_eq_true h

/-- Every word produced by `wordsOf` is non-empty. -/
lemma mem_wordsOf_ne (s w : String) (h : w ∈ wordsOf s) : w ≠ "" := by
  have h2 := (List.mem_filter.mp h).2
  simpa using h2

/-- Every word surviving sanitization is non-empty. -/
lemma mem_sanitize_ne (banned : List String) (s w : String)
    (h : w ∈ sanitize banned s) : w ≠ "" :=
  mem_wordsOf_ne s w (List.mem_filter.mp h).1

/-- Length of a join with at least two words. -/
lemma joinWords_length_cons (w x : String) (ws : List String) :
    (joinWords (w :: x :: ws)).length
      = w.length + 1 + (joinWords (x :: ws)).length := by
  have hsp : (" " : String).length = 1 := rfl
  show (w ++ " " ++ joinWords (x :: ws)).length = _
  rw [String.length_append, String.length_append, hsp]

/-- Joining a list headed by a non-empty word gives a non-empty prompt. -/
lemma joinWords_ne_empty (w : String) (ws : List String) (hw : w ≠ "") :
    joinWords (w :: ws) ≠ "" := by
  cases ws with
  | nil => simpa [joinWords] using hw
  | cons x ws =>
      intro hcontra
      have hlen := congrArg String.length hcontra
      rw [joinWords_length_cons] at hlen
      simp [String.length_empty] at hlen

/-- The improvement step preserves non-emptiness of every word. -/
lemma improveWords_words_ne (maxLen : ℕ) (ws : List String)
    (h : ∀ w ∈ ws, w ≠ "") : ∀ w ∈ improveWords maxLen ws, w ≠ "" := by
  intro w hw
  unfold improveWords at hw
  split_ifs at hw
  · exact h w hw
  · rcases List.mem_append.mp hw with h2 | h2
    · exact h w h2
    · rcases List.mem_singleton.mp h2 with rfl
      simp [styleCue]
  · exact h w hw

/-- The improvement step never leaves the configured maximum length. -/
lemma improveWords_length_le (maxLen : ℕ) (ws : List String)
    (h : (joinWords ws).length ≤ maxLen) :
    (joinWords (improveWords maxLen ws)).length ≤ maxLen := by
  unfold improveWords
  split_ifs with h1 h2
  · exact h
  · exact h2
  · exact h

/-- The improvement step never empties the word list. -/
lemma improveWords_ne_nil (maxLen : ℕ) (ws : List String) (h : ws ≠ []) :
    improveWords maxLen ws ≠ [] := by
  unfold improveWords
  split_ifs with h1 h2
  · exact h
  · simp
  · exact h

/-- C6: for every input string, the Prompt Checker returns a prompt that is
non-empty and within the configured maximum length (provided the configured
maximum accommodates the fallback prompt); it substitutes the generic
fallback prompt when stripping and truncation yield an empty word list, and
otherwise its output is the sanitized words truncated at a word boundary
(whole words only) with the improvement step applied. -/
theorem promptChecker_safe (banned : List String) (maxLen : ℕ) (raw : String)
    (hfb : fallbackPrompt.length ≤ maxLen) :
    (validatePrompt banned maxLen raw).1 ≠ "" ∧
    (validatePrompt banned maxLen raw).1.length ≤ maxLen ∧
    (truncateWords maxLen (sanitize banned raw) = [] →
      (validatePrompt banned maxLen raw).1 = fallbackPrompt) ∧
    ((validatePrompt banned maxLen raw).1 = fallbackPrompt ∨
      ∃ n, (validatePrompt banned maxLen raw).1 =
        joinWords (improveWords maxLen ((sanitize banned raw).take n))) := by
  simp only [validatePrompt]
  split_ifs with h
  · exact ⟨by simp [fallbackPrompt], hfb, fun _ => rfl, Or.inl rfl⟩
  · have hwords : ∀ w ∈ truncateWords maxLen (sanitize banned raw), w ≠ "" := by
      intro w hw
      exact mem_sanitize_ne banned raw w (List.mem_of_mem_take hw)
    have himp := improveWords_words_ne maxLen _ hwords
    have hne := improveWords_ne_nil maxLen _ h
    obtain ⟨w, t, hwt⟩ := List.exists_cons_of_ne_nil hne
    refine ⟨?_, ?_, fun he => absurd he h, Or.inr ⟨largestFit maxLen (sanitize banned raw), rfl⟩⟩
    · show joinWords (improveWords maxLen (truncateWords maxLen (sanitize banned raw))) ≠ ""
      rw [hwt]
      exact joinWords_ne_empty w t (himp w (hwt ▸ List.mem_cons_self w t))
    · show (joinWords (improveWords maxLen (truncateWords maxLen (sanitize banned raw)))).length ≤ maxLen
      exact improveWords_length_le maxLen _ (truncate_fits maxLen _)

/-- Witness for C6 at a concrete banned list, maximum length and raw
prompt. -/
theorem promptChecker_safe_witness :
    fallbackPrompt.length ≤ 60 ∧
    ((validatePrompt ["gunfire"] 60 "calm piano music").1 ≠ "" ∧
     (validatePrompt ["gunfire"] 60 "calm piano music").1.length ≤ 60 ∧
     (truncateWords 60 (sanitize ["gunfire"] "calm piano music") = [] →
       (validatePrompt ["gunfire"] 60 "calm piano music").1 = fallbackPrompt) ∧
     ((validatePrompt ["gunfire"] 60 "calm piano music").1 = fallbackPrompt ∨
       ∃ n, (validatePrompt ["gunfire"] 60 "calm piano music").1 =
         joinWords (improveWords 60 ((sanitize ["gunfire"] "calm piano music").take n)))) :=
  ⟨by decide, promptChecker_safe ["gunfire"] 60 "calm piano music" (by decide)⟩

end Gita
